import Mathlib

/-!
Shallow embedding of `immich_dvd_backup_local.py` and verification of its
specification.  Pure Python string/path helpers are modelled over `String`
(character lists); filesystem state is an explicit list of existing paths;
the interactive / subprocess environment (tool availability, subprocess exit
status, per-asset copy success) is passed in as oracle functions.
-/

set_option linter.unusedVariables false

/- ### Python string and path primitives -/

/-- Python `str.lower`, character by character. -/
def pyLower (s : String) : String := ⟨s.data.map Char.toLower⟩

/-- Boolean list-prefix test; the computational content of Python
`str.startswith` once both strings are viewed as character lists. -/
def prefixB : List Char → List Char → Bool
  | [], _ => true
  | _ :: _, [] => false
  | a :: as, b :: bs => a = b && prefixB as bs

/-- Python `s.startswith(pre)`. -/
def pyStartsWith (s pre : String) : Bool := prefixB pre.data s.data

/-- Python `s.endswith(post)`: suffix test, via reversal. -/
def pyEndsWith (s post : String) : Bool := prefixB post.data.reverse s.data.reverse

/-- Index of the last occurrence of `c` in the list (Python `str.rfind`,
with `none` standing for `-1`). -/
def lastIdx (c : Char) : List Char → Option Nat
  | [] => none
  | a :: as =>
    match lastIdx c as with
    | some i => some (i + 1)
    | none => if a = c then some 0 else none

/-- Python `os.path.splitext` for POSIX paths: split at the last `'.'` that
lies after the last `'/'`, provided some non-dot character of the basename
precedes it (leading dots of the basename never start an extension). -/
def pySplitext (p : String) : String × String :=
  let l := p.data
  let sepIdx : Int := match lastIdx '/' l with | none => -1 | some i => (i : Int)
  let dotIdx : Int := match lastIdx '.' l with | none => -1 | some i => (i : Int)
  if sepIdx < dotIdx then
    if ((l.take dotIdx.toNat).drop (sepIdx + 1).toNat).any (fun ch => ch != '.') then
      (⟨l.take dotIdx.toNat⟩, ⟨l.drop dotIdx.toNat⟩)
    else (p, "")
  else (p, "")

/-- Python `os.path.join` for POSIX paths, two components. -/
def pyJoin (a b : String) : String :=
  if pyStartsWith b "/" then b
  else if a == "" || pyEndsWith a "/" then a ++ b
  else a ++ "/" ++ b

/-- Python `os.path.basename` for POSIX paths. -/
def pyBasename (p : String) : String :=
  match lastIdx '/' p.data with
  | none => p
  | some i => ⟨p.data.drop (i + 1)⟩

/- ### Constants (src lines 14-18) -/

def DVD_CAPACITY_BYTES : Int := 4700000000
def CONTAINER_UPLOAD_PATH : String := "/usr/src/app/upload"
def HOST_UPLOAD_PATH : String := "/mnt/backup/immich-app/library"

/- ### Data model -/

/-- One row of the asset query (src lines 64-86): id, container path,
display filename, creation timestamp, and the (possibly null) byte size. -/
structure Asset where
  id : String
  originalPath : String
  originalFileName : String
  fileCreatedAt : String
  fileSizeInByte : Option Int
deriving DecidableEq

/-- `asset['fileSizeInByte'] or 0` (src line 180): a null size counts as 0. -/
def pySize (o : Option Int) : Int := o.getD 0

/-- `s.split('T')[0]` (src lines 183-184, 200-201): text before the first `'T'`. -/
def dateOf (s : String) : String := ⟨s.data.takeWhile (fun c => c != 'T')⟩

/-- One DVD chunk as built by `main` (src lines 185-191, 202-208). -/
structure Chunk where
  num : Nat
  assets : List Asset
  size : Int
  start : String
  «end» : String
deriving DecidableEq

def defaultAsset : Asset := ⟨"", "", "", "", none⟩

/-- Seal the running accumulator into a chunk record
(src lines 183-191 and 200-208). -/
def sealChunk (num : Nat) (assets : List Asset) (size : Int) : Chunk :=
  { num := num, assets := assets, size := size,
    start := dateOf (assets.headD defaultAsset).fileCreatedAt,
    «end» := dateOf (assets.getLastD defaultAsset).fileCreatedAt }

/- ### Bin Packer (src lines 172-208) -/

/-- The packing loop of `main` (src lines 179-208): state is the remaining
input, the accumulator `current_dvd_assets`, `dvd_size`, `dvd_num`, and the
chunks already sealed (`all_dvds`). -/
def binPackGo (capacity : Int) :
    List Asset → List Asset → Int → Nat → List Chunk → List Chunk
  | [], cur, dvd_size, dvd_num, acc =>
    if cur = [] then acc else acc ++ [sealChunk dvd_num cur dvd_size]
  | asset :: rest, cur, dvd_size, dvd_num, acc =>
    let size := pySize asset.fileSizeInByte
    if capacity < dvd_size + size ∧ cur ≠ [] then
      binPackGo capacity rest [asset] size (dvd_num + 1)
        (acc ++ [sealChunk dvd_num cur dvd_size])
    else
      binPackGo capacity rest (cur ++ [asset]) (dvd_size + size) dvd_num acc

/-- The Bin Packer: `main`'s organisation of assets into DVDs
(src lines 172-208). -/
def binPack (capacity : Int) (assets : List Asset) : List Chunk :=
  binPackGo capacity assets [] 0 1 []

/- ### Bin Packer lemmas -/

theorem binPackGo_flatten (capacity : Int) :
    ∀ (rest cur : List Asset) (dvd_size : Int) (dvd_num : Nat) (acc : List Chunk),
      ((binPackGo capacity rest cur dvd_size dvd_num acc).map Chunk.assets).flatten
        = ((acc.map Chunk.assets).flatten) ++ cur ++ rest := by
  intro rest
  induction rest with
  | nil =>
    intro cur dvd_size dvd_num acc
    by_cases h : cur = [] <;> simp [binPackGo, h, sealChunk]
  | cons a rest ih =>
    intro cur dvd_size dvd_num acc
    by_cases h : capacity < dvd_size + pySize a.fileSizeInByte ∧ cur ≠ []
    · simp only [binPackGo, if_pos h]
      rw [ih]
      simp [sealChunk]
    · simp only [binPackGo, if_neg h]
      rw [ih]
      simp

/-- C1: For every input sequence of asset records and capacity bound, the
Bin Packer's output chunks partition the input exactly — the concatenation
of the chunks' member lists equals the input sequence in its original
relative order (hence every asset appears in exactly one chunk, in order) —
and empty input yields an empty chunk sequence. -/
theorem binPack_partitions (capacity : Int) (assets : List Asset) :
    ((binPack capacity assets).map Chunk.assets).flatten = assets ∧
      binPack capacity [] = [] := by
  constructor
  · simpa [binPack] using binPackGo_flatten capacity assets [] 0 1 []
  · rfl

theorem binPackGo_sound (capacity : Int) :
    ∀ (rest cur : List Asset) (dvd_size : Int) (dvd_num : Nat) (acc : List Chunk),
      dvd_size = (cur.map (fun a => pySize a.fileSizeInByte)).sum →
      (2 ≤ cur.length → dvd_size ≤ capacity) →
      (∀ c ∈ acc, c.assets ≠ [] ∧
        c.size = (c.assets.map (fun a => pySize a.fileSizeInByte)).sum ∧
        (2 ≤ c.assets.length → c.size ≤ capacity)) →
      ∀ c ∈ binPackGo capacity rest cur dvd_size dvd_num acc,
        c.assets ≠ [] ∧
        c.size = (c.assets.map (fun a => pySize a.fileSizeInByte)).sum ∧
        (2 ≤ c.assets.length → c.size ≤ capacity) := by
  intro rest
  induction rest with
  | nil =>
    intro cur dvd_size dvd_num acc hsum hbound hacc c hc
    by_cases h : cur = []
    · simp only [binPackGo, if_pos h] at hc
      exact hacc c hc
    · simp only [binPackGo, if_neg h] at hc
      rcases List.mem_append.mp hc with h1 | h2
      · exact hacc c h1
      · have : c = sealChunk dvd_num cur dvd_size := by simpa using h2
        subst this
        exact ⟨h, hsum, hbound⟩
  | cons a rest ih =>
    intro cur dvd_size dvd_num acc hsum hbound hacc c hc
    by_cases h : capacity < dvd_size + pySize a.fileSizeInByte ∧ cur ≠ []
    · simp only [binPackGo, if_pos h] at hc
      refine ih [a] (pySize a.fileSizeInByte) (dvd_num + 1) _ (by simp) ?_ ?_ c hc
      · intro hlen; simp at hlen
      · intro d hd
        rcases List.mem_append.mp hd with h1 | h2
        · exact hacc d h1
        · have : d = sealChunk dvd_num cur dvd_size := by simpa using h2
          subst this
          exact ⟨h.2, hsum, hbound⟩
    · simp only [binPackGo, if_neg h] at hc
      refine ih (cur ++ [a]) (dvd_size + pySize a.fileSizeInByte) dvd_num acc
        ?_ ?_ hacc c hc
      · simp [hsum]
      · intro hlen
        by_cases hcur : cur = []
        · subst hcur; simp at hlen
        · have : ¬ capacity < dvd_size + pySize a.fileSizeInByte := fun hlt => h ⟨hlt, hcur⟩
          omega

/-- C2: Every chunk the Bin Packer produces is non-empty, its recorded size
is the sum of its members' byte sizes (a null size counting as zero), a
chunk whose cumulative size exceeds the capacity bound holds exactly one
asset, and every chunk with two or more members has cumulative size at most
the capacity bound. -/
theorem binPack_capacity_invariant (capacity : Int) (assets : List Asset) :
    ∀ c ∈ binPack capacity assets,
      c.assets ≠ [] ∧
      c.size = (c.assets.map (fun a => pySize a.fileSizeInByte)).sum ∧
      (capacity < c.size → c.assets.length = 1) ∧
      (2 ≤ c.assets.length → c.size ≤ capacity) := by
  intro c hc
  have h := binPackGo_sound capacity assets [] 0 1 []
    (by simp) (by intro h2; simp at h2) (by simp) c (by simpa [binPack] using hc)
  refine ⟨h.1, h.2.1, ?_, h.2.2⟩
  intro hlt
  have hne : c.assets.length ≠ 0 := by
    intro h0
    exact h.1 (List.length_eq_zero.mp h0)
  by_contra hlen1
  have : 2 ≤ c.assets.length := by omega
  exact absurd (h.2.2 this) (not_le.mpr hlt)

def wAsset (i : String) (sz : Int) : Asset :=
  ⟨i, "", "", "2020-01-01T00:00:00", some sz⟩

def wChunk : Chunk := ⟨1, [wAsset "a" 1], 1, "2020-01-01", "2020-01-01"⟩

theorem binPack_capacity_invariant_witness :
    wChunk ∈ binPack 0 [wAsset "a" 1] ∧
      (wChunk.assets ≠ [] ∧
        wChunk.size = (wChunk.assets.map (fun a => pySize a.fileSizeInByte)).sum ∧
        ((0 : Int) < wChunk.size → wChunk.assets.length = 1) ∧
        (2 ≤ wChunk.assets.length → wChunk.size ≤ (0 : Int))) :=
  ⟨by decide, binPack_capacity_invariant 0 [wAsset "a" 1] wChunk (by decide)⟩

/- ### Progress Tracker (`BackupState`, src lines 20-53) -/

/-- The three in-memory fields of `BackupState` (src lines 24-26). -/
structure StateRec where
  last_asset_id : Option String
  current_dvd : Int
  current_dvd_size : Int
deriving DecidableEq

/-- Defaults set in `__init__` before `load` runs (src lines 24-26). -/
def initState : StateRec := ⟨none, 1, 0⟩

/-- On-disk condition of the state file as `load` can observe it:
absent, unreadable/unparsable, or a parsed JSON object whose three keys may
each be missing (a missing `last_asset_id` and a null one are
indistinguishable through `dict.get`). -/
inductive StateFile where
  | absent : StateFile
  | corrupt : StateFile
  | parsed : Option String → Option Int → Option Int → StateFile
deriving DecidableEq

/-- `BackupState.load` (src lines 29-38) acting on current in-memory fields
`cur`; the returned `Bool` records whether the warning was printed. -/
def BackupState.load (cur : StateRec) (f : StateFile) : StateRec × Bool :=
  match f with
  | .absent => (cur, false)
  | .corrupt => (cur, true)
  | .parsed l d s => (⟨l, d.getD 1, s.getD 0⟩, false)

/-- The file content `BackupState.save` writes (src lines 40-47): a JSON
object with exactly the three fields. -/
def saveFile (m : StateRec) : StateFile :=
  .parsed m.last_asset_id (some m.current_dvd) (some m.current_dvd_size)

/-- The tracker's world: its in-memory fields plus the state file on disk. -/
structure TrackerWorld where
  mem : StateRec
  file : StateFile
deriving DecidableEq

/-- `BackupState.update` (src lines 49-53): under the lock, overwrite the
three in-memory fields from the arguments (the `size` argument is unused by
the source, exactly as here). -/
def BackupState.update (w : TrackerWorld) (asset_id : String) (size : Int)
    (dvd : Int) (dvd_size : Int) : TrackerWorld :=
  { w with mem := ⟨some asset_id, dvd, dvd_size⟩ }

/-- `BackupState.save` as a world operation (src lines 40-47). -/
def BackupState.save (w : TrackerWorld) : TrackerWorld :=
  { w with file := saveFile w.mem }

/-- C3 counterexample: starting from the default memory and an absent state
file, `update("a1", 7, 2, 100)` leaves the file absent, which differs from
the persisted form of the new in-memory state — so `update` does not
persist anything, refuting the claim that it "immediately persists the new
state to the durable state file". -/
theorem update_not_persisting_cex :
    (BackupState.update ⟨initState, .absent⟩ "a1" 7 2 100).file = .absent ∧
    (BackupState.update ⟨initState, .absent⟩ "a1" 7 2 100).file ≠
      saveFile (BackupState.update ⟨initState, .absent⟩ "a1" 7 2 100).mem := by
  exact ⟨rfl, by decide⟩

/-- C3 (amended): `update(assetId, size, chunkOrdinal, chunkAccumSize)`
replaces the in-memory state as one atomic assignment under the lock —
last asset id becomes `assetId`, chunk ordinal `chunkOrdinal`, accumulated
size `chunkAccumSize` — but it performs no persistence: the durable state
file is unchanged, and only a separate `save` call writes it. -/
theorem update_replaces_memory_only (w : TrackerWorld) (asset_id : String)
    (size dvd dvd_size : Int) :
    (BackupState.update w asset_id size dvd dvd_size).mem
        = ⟨some asset_id, dvd, dvd_size⟩ ∧
      (BackupState.update w asset_id size dvd dvd_size).file = w.file ∧
      (BackupState.save w).file = saveFile w.mem := by
  exact ⟨rfl, rfl, rfl⟩

/-- C4: saving a tracker state and loading it back (whatever the in-memory
fields held before the load) yields the identical state record. -/
theorem save_load_roundtrip (s cur : StateRec) :
    (BackupState.load cur (saveFile s)).1 = s := by
  cases s
  rfl

/-- C8 counterexample: with the state file absent, the constructor-time
load yields the default state but prints no warning — refuting the claim
that an absent file is surfaced with a warning (only a read/parse failure
is). -/
theorem load_absent_silent_cex :
    BackupState.load initState .absent = (initState, false) := rfl

/-- C8 (amended): the tracker's `load` never aborts the run: an absent
state file leaves the defaults (chunk ordinal 1, accumulated size 0, no
last asset id) silently, and any read/parse failure also results in the
default state, with a surfaced warning rather than an error. -/
theorem load_defaults_behavior :
    BackupState.load initState .absent = (⟨none, 1, 0⟩, false) ∧
      BackupState.load initState .corrupt = (⟨none, 1, 0⟩, true) := ⟨rfl, rfl⟩

/- ### Bridging the boolean string tests to Mathlib's list relations -/

theorem prefixB_iff : ∀ (l₁ l₂ : List Char), prefixB l₁ l₂ = true ↔ l₁ <+: l₂ := by
  intro l₁
  induction l₁ with
  | nil => intro l₂; simp [prefixB]
  | cons a as ih =>
    intro l₂
    cases l₂ with
    | nil => simp [prefixB]
    | cons b bs =>
      simp [prefixB, List.cons_prefix_cons, ih bs, and_comm]

theorem pyStartsWith_iff (s pre : String) :
    pyStartsWith s pre = true ↔ pre.data <+: s.data := prefixB_iff _ _

theorem pyEndsWith_iff (s post : String) :
    pyEndsWith s post = true ↔ post.data <:+ s.data := by
  rw [pyEndsWith, prefixB_iff]
  exact List.reverse_prefix

/- ### Materializer (`copy_asset`, src lines 95-129) -/

/-- `container_path.replace(CONTAINER_UPLOAD_PATH, HOST_UPLOAD_PATH, 1)`
(src line 101); `copy_asset` only evaluates it under the
`startswith(CONTAINER_UPLOAD_PATH)` guard, where replacing the first
occurrence is exactly replacing the leading characters. -/
def hostPathOf (container_path : String) : String :=
  HOST_UPLOAD_PATH ++ container_path.drop CONTAINER_UPLOAD_PATH.length

/-- Target-filename computation (src line 109): append the source file's
extension unless the display name already ends with it, case-insensitively. -/
def target_filename (original_filename ext : String) : String :=
  if pyEndsWith (pyLower original_filename) (pyLower ext) then original_filename
  else original_filename ++ ext

/-- The path-resolution half of `copy_asset` (src lines 96-113), reading the
filesystem `fs` (the list of currently existing paths): `none` when the
asset is skipped (foreign prefix missing or source file absent), otherwise
the final target path, disambiguated with the asset id when the initial
target already exists. -/
def computeTargetPath (fs : List String) (asset : Asset) (dvd_dir : String) :
    Option String :=
  if pyStartsWith asset.originalPath CONTAINER_UPLOAD_PATH then
    let host_path := hostPathOf asset.originalPath
    if host_path ∈ fs then
      let ext := (pySplitext host_path).2
      let tf := target_filename asset.originalFileName ext
      let target_path := pyJoin dvd_dir tf
      if target_path ∈ fs then
        some (pyJoin dvd_dir ((pySplitext tf).1 ++ "_" ++ asset.id ++ ext))
      else some target_path
    else none
  else none

/-- `copy_asset` (src lines 95-129) as one atomic step over the filesystem:
returns the reported success and the new filesystem.  `copy_ok` is the
environment oracle for the placement itself (hard link / copy) succeeding;
a hard-link failure falling back to a successful copy is indistinguishable
from a direct successful copy in this model, so `use_links` has no separate
effect. -/
def copy_asset (fs : List String) (asset : Asset) (dvd_dir : String)
    (dry_run use_links copy_ok : Bool) : Bool × List String :=
  match computeTargetPath fs asset dvd_dir with
  | none => (false, fs)
  | some target_path =>
    if dry_run then (true, fs)
    else if copy_ok then (true, target_path :: fs)
    else (false, fs)

theorem computeTargetPath_none_iff (fs : List String) (asset : Asset)
    (dvd_dir : String) :
    computeTargetPath fs asset dvd_dir = none ↔
      ¬ (CONTAINER_UPLOAD_PATH.data <+: asset.originalPath.data ∧
          hostPathOf asset.originalPath ∈ fs) := by
  constructor
  · intro h hc
    have h1 : pyStartsWith asset.originalPath CONTAINER_UPLOAD_PATH = true :=
      (pyStartsWith_iff _ _).mpr hc.1
    simp only [computeTargetPath, h1, if_true, hc.2, if_true] at h
    split at h <;> simp at h
  · intro hc
    by_cases h1 : pyStartsWith asset.originalPath CONTAINER_UPLOAD_PATH = true
    · by_cases h2 : hostPathOf asset.originalPath ∈ fs
      · exact absurd ⟨(pyStartsWith_iff _ _).mp h1, h2⟩ hc
      · simp [computeTargetPath, h1, h2]
    · simp [computeTargetPath, h1]

/-- C9: the Materializer's target filename is the display name with the
resolved source file's extension appended exactly when the display name
does not already end with that extension under case-insensitive comparison
(lower-casing both sides); when it already ends with the extension — in
particular whenever the extension is empty — the target filename is the
display name unchanged. -/
theorem target_filename_spec (name host : String) :
    ((pyLower (pySplitext host).2).data <:+ (pyLower name).data →
        target_filename name (pySplitext host).2 = name) ∧
      (¬ (pyLower (pySplitext host).2).data <:+ (pyLower name).data →
        target_filename name (pySplitext host).2 = name ++ (pySplitext host).2) ∧
      target_filename name "" = name := by
  refine ⟨?_, ?_, ?_⟩
  · intro h
    simp [target_filename, (pyEndsWith_iff _ _).mpr h]
  · intro h
    have hb : pyEndsWith (pyLower name) (pyLower (pySplitext host).2) = false := by
      rcases Bool.eq_false_or_eq_true
          (pyEndsWith (pyLower name) (pyLower (pySplitext host).2)) with hb | hb
      · exact absurd ((pyEndsWith_iff _ _).mp hb) h
      · exact hb
    simp [target_filename, hb]
  · have hb : pyEndsWith (pyLower name) (pyLower "") = true := by
      rw [pyEndsWith_iff]
      have : (pyLower "").data = [] := rfl
      rw [this]
      exact List.nil_suffix
    simp [target_filename, hb]

theorem target_filename_spec_witness :
    target_filename "img.jpg" (pySplitext "/m/p.JPG").2 = "img.jpg" ∧
      target_filename "img" (pySplitext "/m/p.jpg").2 = "img" ++ ".jpg" :=
  ⟨(target_filename_spec "img.jpg" "/m/p.JPG").1 (by decide),
   by
    have h := (target_filename_spec "img" "/m/p.jpg").2.1 (by decide)
    simpa using h⟩

/-- C7: in dry-run mode `copy_asset` leaves the filesystem untouched and
reports success exactly when the asset's source path begins with the
foreign container prefix and the rewritten local path exists; an asset
failing either condition is reported as a failure with no filesystem
effect in any mode. -/
theorem copy_asset_dry_run_frame (fs : List String) (asset : Asset)
    (dvd_dir : String) (use_links copy_ok : Bool) :
    (copy_asset fs asset dvd_dir true use_links copy_ok).2 = fs ∧
      ((copy_asset fs asset dvd_dir true use_links copy_ok).1 = true ↔
        (CONTAINER_UPLOAD_PATH.data <+: asset.originalPath.data ∧
          hostPathOf asset.originalPath ∈ fs)) ∧
      (∀ dry_run : Bool,
        ¬ (CONTAINER_UPLOAD_PATH.data <+: asset.originalPath.data ∧
            hostPathOf asset.originalPath ∈ fs) →
        copy_asset fs asset dvd_dir dry_run use_links copy_ok = (false, fs)) := by
  refine ⟨?_, ?_, ?_⟩
  · rcases hcase : computeTargetPath fs asset dvd_dir with _ | tp <;>
      simp [copy_asset, hcase]
  · rcases hcase : computeTargetPath fs asset dvd_dir with _ | tp
    · simp only [copy_asset, hcase]
      simp only [Bool.false_eq_true, false_iff]
      exact (computeTargetPath_none_iff fs asset dvd_dir).mp hcase
    · simp only [copy_asset, hcase, if_true]
      simp only [if_pos rfl, true_iff]
      by_contra h
      rw [← computeTargetPath_none_iff fs asset dvd_dir] at h
      rw [h] at hcase
      exact Option.noConfusion hcase
  · intro dry_run h
    have hnone : computeTargetPath fs asset dvd_dir = none :=
      (computeTargetPath_none_iff fs asset dvd_dir).mpr h
    simp [copy_asset, hnone]

def wGoodAsset : Asset :=
  ⟨"idA", "/usr/src/app/upload/x/a.jpg", "a.jpg", "2020-01-01T00:00:00", some 10⟩

def wBadAsset : Asset :=
  ⟨"idB", "/elsewhere/x/b.jpg", "b.jpg", "2020-01-01T00:00:00", some 10⟩

def wFs : List String := ["/mnt/backup/immich-app/library/x/a.jpg"]

theorem copy_asset_dry_run_frame_witness :
    (copy_asset wFs wGoodAsset "/b/DVD_1" true false true).2 = wFs ∧
      copy_asset wFs wBadAsset "/b/DVD_1" false false true = (false, wFs) :=
  ⟨(copy_asset_dry_run_frame wFs wGoodAsset "/b/DVD_1" false true).1,
   (copy_asset_dry_run_frame wFs wBadAsset "/b/DVD_1" false true).2.2 false
     (by decide)⟩

/- ### Concurrent materialization of one chunk (src lines 252-264) -/

/-- One recorded file placement: the final path written and the asset that
wrote it. -/
structure WriteRec where
  path : String
  assetId : String
deriving DecidableEq

/-- Two pool workers under the interleaving
`check(a) ; check(b) ; write(a) ; write(b)`, which the thread pool permits:
both existence checks (src line 112) read the same filesystem `fs` before
either write lands.  Returns the placements performed. -/
def raceWrites (fs : List String) (a b : Asset) (dvd_dir : String) :
    List WriteRec :=
  let t1 := computeTargetPath fs a dvd_dir
  let t2 := computeTargetPath fs b dvd_dir
  (t1.elim [] fun p => [⟨p, a.id⟩]) ++ (t2.elim [] fun p => [⟨p, b.id⟩])

/-- The same two workers under the sequential interleaving
`check(a) ; write(a) ; check(b) ; write(b)`: the second check sees the
first write. -/
def seqWrites (fs : List String) (a b : Asset) (dvd_dir : String) :
    List WriteRec :=
  match computeTargetPath fs a dvd_dir with
  | none => (computeTargetPath fs b dvd_dir).elim [] fun p => [⟨p, b.id⟩]
  | some p1 =>
    ⟨p1, a.id⟩ ::
      ((computeTargetPath (p1 :: fs) b dvd_dir).elim [] fun p => [⟨p, b.id⟩])

def raceA1 : Asset :=
  ⟨"id1", "/usr/src/app/upload/a/img.jpg", "img.jpg", "2020-01-01T00:00:00", some 100⟩

def raceA2 : Asset :=
  ⟨"id2", "/usr/src/app/upload/b/img.jpg", "img.jpg", "2020-01-02T00:00:00", some 100⟩

def raceFs : List String :=
  ["/mnt/backup/immich-app/library/a/img.jpg",
   "/mnt/backup/immich-app/library/b/img.jpg"]

/-- C5 fails on the code: two distinct assets sharing a display name, both
materialized into the same chunk, can both pass the existence check of
src line 112 before either write occurs; both then write the same final
path (silent overwrite).  Under the sequential schedule the id-suffix
disambiguation of src line 113 does fire, confirming that the collision
check only guards against earlier completed placements. -/
theorem materializer_collision_race :
    raceWrites raceFs raceA1 raceA2 "/backups/DVD_1" =
        [⟨"/backups/DVD_1/img.jpg", "id1"⟩, ⟨"/backups/DVD_1/img.jpg", "id2"⟩] ∧
      raceA1.id ≠ raceA2.id ∧
      seqWrites raceFs raceA1 raceA2 "/backups/DVD_1" =
        [⟨"/backups/DVD_1/img.jpg", "id1"⟩,
         ⟨"/backups/DVD_1/img_id2.jpg", "id2"⟩] := by
  refine ⟨by decide, by decide, by decide⟩

/- ### Archive Builder (`create_iso`, src lines 131-151) -/

/-- The candidate tool invocations, in declared preference order
(src lines 134-138). -/
def isoTools (iso_path source_dir : String) : List (List String) :=
  [["xorriso", "-as", "mkisofs", "-o", iso_path, "-J", "-R", "-V",
      pyBasename source_dir, source_dir],
   ["genisoimage", "-o", iso_path, "-J", "-R", "-V",
      pyBasename source_dir, source_dir],
   ["mkisofs", "-o", iso_path, "-J", "-R", "-V",
      pyBasename source_dir, source_dir]]

/-- The fallback loop of `create_iso` (src lines 140-151): `avail` models
`shutil.which` on the tool name, `runTool` models the subprocess exit
status of the full command.  Returns the overall result and the list of
commands actually invoked, in order. -/
def create_iso_go (avail : String → Bool) (runTool : List String → Bool) :
    List (List String) → Bool × List (List String)
  | [] => (false, [])
  | cmd :: rest =>
    if avail (cmd.headD "") then
      if runTool cmd then (true, [cmd])
      else
        let r := create_iso_go avail runTool rest
        (r.1, cmd :: r.2)
    else create_iso_go avail runTool rest

/-- `create_iso` (src lines 131-151). -/
def create_iso (avail : String → Bool) (runTool : List String → Bool)
    (iso_path source_dir : String) : Bool × List (List String) :=
  create_iso_go avail runTool (isoTools iso_path source_dir)

/-- Spec-side description of the attempt sequence: run the available
candidates in order, keeping every failed attempt and stopping at the
first success. -/
def specAttempts (runTool : List String → Bool) :
    List (List String) → List (List String)
  | [] => []
  | cmd :: rest =>
    if runTool cmd then [cmd] else cmd :: specAttempts runTool rest

theorem create_iso_go_spec (avail : String → Bool)
    (runTool : List String → Bool) :
    ∀ ts : List (List String),
      (create_iso_go avail runTool ts).1
          = (ts.filter fun c => avail (c.headD "")).any runTool ∧
        (create_iso_go avail runTool ts).2
          = specAttempts runTool (ts.filter fun c => avail (c.headD "")) := by
  intro ts
  induction ts with
  | nil => exact ⟨rfl, rfl⟩
  | cons cmd rest ih =>
    by_cases ha : avail (cmd.headD "") = true
    · by_cases hr : runTool cmd = true
      · simp only [create_iso_go, List.filter_cons, if_pos ha, if_pos hr,
          specAttempts, List.any_cons, hr, Bool.true_or]
        exact ⟨rfl, rfl⟩
      · have hr' : runTool cmd = false := by
          rcases Bool.eq_false_or_eq_true (runTool cmd) with h | h
          · exact absurd h hr
          · exact h
        simp only [create_iso_go, List.filter_cons, if_pos ha, if_neg hr,
          specAttempts, List.any_cons, hr', Bool.false_or, Bool.false_eq_true,
          if_false]
        exact ⟨ih.1, by rw [ih.2]⟩
    · simp only [create_iso_go, List.filter_cons, if_neg ha]
      exact ih

/- ### Orchestrator (`main`, src lines 241-271) -/

/-- The world the pipeline acts on: the filesystem, the durable state file,
and the tracker's in-memory fields. -/
structure World where
  fs : List String
  stateFile : StateFile
  tracker : StateRec
deriving DecidableEq

/-- `os.makedirs(d, exist_ok=True)` on the path list. -/
def makedirs (fs : List String) (d : String) : List String :=
  if d ∈ fs then fs else d :: fs

/-- `shutil.rmtree(d)`: remove the directory and everything below it. -/
def rmtree (fs : List String) (d : String) : List String :=
  fs.filter fun p => !(p == d || pyStartsWith p (d ++ "/"))

/-- Staging directory path for one DVD (src line 244). -/
def dvdDirOf (backup_dir : String) (dvd : Chunk) : String :=
  pyJoin backup_dir ("DVD_" ++ toString dvd.num)

/-- Output ISO path for one DVD (src line 245). -/
def isoPathOf (backup_dir : String) (dvd : Chunk) : String :=
  pyJoin backup_dir
    ("immich_backup_dvd_" ++ toString dvd.num ++ "_" ++ dvd.start ++ "_"
      ++ dvd.«end» ++ ".iso")

/-- The chunk's materialization pass (src lines 252-264) at the level of
filesystem effects, one completed `copy_asset` per member; `copyOk` is the
per-asset placement oracle keyed by asset id. -/
def materializeChunk (copyOk : String → Bool) (fs : List String)
    (assets : List Asset) (dvd_dir : String) (dry_run use_links : Bool) :
    List String :=
  assets.foldl
    (fun acc a => (copy_asset acc a dvd_dir dry_run use_links (copyOk a.id)).2) fs

/-- One iteration of the per-DVD loop of `main` (src lines 241-269):
make the staging directory (unless dry-run), materialize the chunk,
and when not in dry-run build the ISO and, only on success, write the ISO
file and reclaim the staging directory. -/
def processDvd (avail : String → Bool) (runTool : List String → Bool)
    (copyOk : String → Bool) (backup_dir : String)
    (dry_run use_links : Bool) (w : World) (dvd : Chunk) : World :=
  let dvd_dir := dvdDirOf backup_dir dvd
  let iso_path := isoPathOf backup_dir dvd
  let fs1 := if dry_run then w.fs else makedirs w.fs dvd_dir
  let fs2 := materializeChunk copyOk fs1 dvd.assets dvd_dir dry_run use_links
  if dry_run then { w with fs := fs2 }
  else if (create_iso avail runTool iso_path dvd_dir).1 then
    { w with fs := rmtree (iso_path :: fs2) dvd_dir }
  else { w with fs := fs2 }

/-- `main` after the menu selection (src lines 164-271, orchestration only):
make the backup directory, construct the tracker (its constructor runs
`load`), then process the selected DVDs in order.  No step below ever calls
`BackupState.update` or `BackupState.save`, exactly as in the source. -/
def mainPipeline (avail : String → Bool) (runTool : List String → Bool)
    (copyOk : String → Bool) (backup_dir : String)
    (dry_run use_links : Bool) (w : World) (to_process : List Chunk) : World :=
  let w1 := { w with fs := makedirs w.fs backup_dir,
                     tracker := (BackupState.load initState w.stateFile).1 }
  to_process.foldl (processDvd avail runTool copyOk backup_dir dry_run use_links) w1

theorem processDvd_frame (avail : String → Bool) (runTool : List String → Bool)
    (copyOk : String → Bool) (backup_dir : String) (dry_run use_links : Bool)
    (w : World) (dvd : Chunk) :
    (processDvd avail runTool copyOk backup_dir dry_run use_links w dvd).stateFile
        = w.stateFile ∧
      (processDvd avail runTool copyOk backup_dir dry_run use_links w dvd).tracker
        = w.tracker := by
  simp only [processDvd]
  split
  · exact ⟨rfl, rfl⟩
  · split
    · exact ⟨rfl, rfl⟩
    · exact ⟨rfl, rfl⟩

theorem foldl_processDvd_frame (avail : String → Bool)
    (runTool : List String → Bool) (copyOk : String → Bool)
    (backup_dir : String) (dry_run use_links : Bool) :
    ∀ (to_process : List Chunk) (w : World),
      (to_process.foldl
          (processDvd avail runTool copyOk backup_dir dry_run use_links) w).stateFile
          = w.stateFile ∧
        (to_process.foldl
          (processDvd avail runTool copyOk backup_dir dry_run use_links) w).tracker
          = w.tracker := by
  intro to_process
  induction to_process with
  | nil => intro w; exact ⟨rfl, rfl⟩
  | cons dvd rest ih =>
    intro w
    have h1 := processDvd_frame avail runTool copyOk backup_dir dry_run use_links w dvd
    have h2 := ih (processDvd avail runTool copyOk backup_dir dry_run use_links w dvd)
    simp only [List.foldl_cons]
    exact ⟨h2.1.trans h1.1, h2.2.trans h1.2⟩

/-- C10: after the initial constructor-time load, no part of the pipeline
invokes the tracker's `update` or `save`: the persisted state file's
on-disk contents are unchanged by the entire run, and the in-memory
tracker stays exactly what the initial load produced. -/
theorem pipeline_preserves_state_file (avail : String → Bool)
    (runTool : List String → Bool) (copyOk : String → Bool)
    (backup_dir : String) (dry_run use_links : Bool) (w : World)
    (to_process : List Chunk) :
    (mainPipeline avail runTool copyOk backup_dir dry_run use_links w
        to_process).stateFile = w.stateFile ∧
      (mainPipeline avail runTool copyOk backup_dir dry_run use_links w
        to_process).tracker = (BackupState.load initState w.stateFile).1 := by
  unfold mainPipeline
  have h := foldl_processDvd_frame avail runTool copyOk backup_dir dry_run use_links
    to_process
    { w with fs := makedirs w.fs backup_dir,
             tracker := (BackupState.load initState w.stateFile).1 }
  exact ⟨h.1, h.2⟩

/-- C6: the Archive Builder tries the candidate commands in the fixed
declared order (xorriso, genisoimage, mkisofs), skipping unavailable tools
and stopping at the first successful invocation: it succeeds exactly when
some available candidate runs successfully, its attempt sequence is the
available candidates in order up to and including the first success, and
when it reports failure the orchestrator performs no recursive delete —
the staging directory and its contents survive untouched. -/
theorem create_iso_fallback_order (avail : String → Bool)
    (runTool : List String → Bool) (iso_path source_dir backup_dir : String)
    (copyOk : String → Bool) (use_links : Bool) (w : World) (dvd : Chunk) :
    (create_iso avail runTool iso_path source_dir).1
        = ((isoTools iso_path source_dir).filter
            fun c => avail (c.headD "")).any runTool ∧
      (create_iso avail runTool iso_path source_dir).2
        = specAttempts runTool
            ((isoTools iso_path source_dir).filter fun c => avail (c.headD "")) ∧
      ((create_iso avail runTool (isoPathOf backup_dir dvd)
            (dvdDirOf backup_dir dvd)).1 = false →
        processDvd avail runTool copyOk backup_dir false use_links w dvd
          = { w with
                fs := materializeChunk copyOk
                  (makedirs w.fs (dvdDirOf backup_dir dvd)) dvd.assets
                  (dvdDirOf backup_dir dvd) false use_links }) := by
  refine ⟨(create_iso_go_spec avail runTool _).1,
    (create_iso_go_spec avail runTool _).2, ?_⟩
  intro hfail
  simp only [processDvd, hfail, Bool.false_eq_true, if_false]

def wDvd : Chunk := ⟨1, [], 0, "2020-01-01", "2020-01-01"⟩

theorem create_iso_fallback_order_witness :
    processDvd (fun _ => false) (fun _ => false) (fun _ => false) "/b" false false
        ⟨[], .absent, initState⟩ wDvd
      = { fs := materializeChunk (fun _ => false)
            (makedirs ([] : List String) (dvdDirOf "/b" wDvd)) wDvd.assets
            (dvdDirOf "/b" wDvd) false false,
          stateFile := .absent, tracker := initState } :=
  (create_iso_fallback_order (fun _ => false) (fun _ => false) "/i" "/s" "/b"
    (fun _ => false) false ⟨[], .absent, initState⟩ wDvd).2.2 (by decide)
